import Mathlib

/-!
# Verification of the GWAS row-validation and p-value aggregation engine

Shallow embedding of `lib/validate_GWASSS_entries.py`: the row validator
(`check_row`), the streaming classification pass, the bucket-geometry builder
(`bars_widths`) and the per-bucket aggregator, together with theorems settling
the specification claims.

Python floats are modelled exactly: a string accepted by Python's `float(...)`
is parsed into a `PyFloat` — either an exact rational, an infinity, or NaN.
Python exceptions are modelled as `Option`: an operation that would raise
returns `none`, and every `try/except` of the source becomes a `match`.
-/

namespace GWAS

/-- Result of Python `float(s)`: a finite value (kept as an exact rational),
positive/negative infinity (`"inf"`, `"infinity"`), or NaN (`"nan"`). -/
inductive PyFloat where
  | fin (q : ℚ)
  | pinf
  | ninf
  | nan
deriving DecidableEq, Repr

/-- ASCII whitespace stripped by Python `float(str)`. -/
def isPyWS (c : Char) : Bool :=
  c = ' ' || c = '\t' || c = '\n' || c = '\x0d' || c = '\x0b' || c = '\x0c'

/-- A character allowed inside a digit group: a decimal digit or `_`. -/
def isDigitU (c : Char) : Bool := c.isDigit || c = '_'

/-- Validity of the tail of a digit group: underscores only between digits. -/
def groupTail : List Char → Bool
  | [] => true
  | '_' :: c :: rest => c.isDigit && groupTail rest
  | '_' :: [] => false
  | c :: rest => c.isDigit && groupTail rest

/-- A valid Python digit group: nonempty, starts with a digit, underscores
strictly between digits (`1_000` valid; `_1`, `1_`, `1__0` invalid). -/
def groupOk : List Char → Bool
  | [] => false
  | c :: rest => c.isDigit && groupTail rest

/-- Numeric value of a digit group, ignoring underscores. -/
def digitsVal (g : List Char) : ℕ :=
  g.foldl (fun acc c => if c = '_' then acc else acc * 10 + (c.toNat - 48)) 0

/-- Number of actual digits in a digit group (underscores not counted). -/
def digitsCount (g : List Char) : ℕ := (g.filter (fun c => c ≠ '_')).length

/-- Parse the exponent part that follows `e`/`E`: optional sign, digit group. -/
def parseExp (l : List Char) : Option ℤ :=
  match l with
  | '+' :: r => if groupOk r then some (Int.ofNat (digitsVal r)) else none
  | '-' :: r => if groupOk r then some (Int.negOfNat (digitsVal r)) else none
  | r => if groupOk r then some (Int.ofNat (digitsVal r)) else none

/-- The exact rational value `(ip . fp) * 10 ^ e` of a decimal literal with
integer-part digits `ip`, fraction digits `fp` and exponent `e`.  Built with
`Rat.divInt` over `ℕ`/`ℤ` arithmetic only. -/
def decValue (ip fp : List Char) (e : ℤ) : ℚ :=
  let k := digitsCount fp
  let m : ℕ := digitsVal ip * 10 ^ k + digitsVal fp
  match e with
  | .ofNat a => Rat.divInt (Int.ofNat (m * 10 ^ a)) (Int.ofNat (10 ^ k))
  | .negSucc a => Rat.divInt (Int.ofNat m) (Int.ofNat (10 ^ k * 10 ^ (a + 1)))

/-- Parse an unsigned numeric literal (mantissa with optional fraction and
exponent) in the syntax accepted by Python `float`. -/
def parseNumeric (l : List Char) : Option ℚ :=
  let ip := l.takeWhile isDigitU
  let rest1 := l.dropWhile isDigitU
  match rest1 with
  | [] =>
    if groupOk ip then some (decValue ip [] 0) else none
  | '.' :: rest2 =>
    let fp := rest2.takeWhile isDigitU
    let rest3 := rest2.dropWhile isDigitU
    if (ip.isEmpty || groupOk ip) && (fp.isEmpty || groupOk fp)
        && (!ip.isEmpty || !fp.isEmpty) then
      match rest3 with
      | [] => some (decValue ip fp 0)
      | 'e' :: r => (parseExp r).map (decValue ip fp)
      | 'E' :: r => (parseExp r).map (decValue ip fp)
      | _ => none
    else none
  | 'e' :: r =>
    if groupOk ip then (parseExp r).map (decValue ip []) else none
  | 'E' :: r =>
    if groupOk ip then (parseExp r).map (decValue ip []) else none
  | _ => none

/-- Parse an unsigned body: `inf`, `infinity`, `nan` (case-insensitive),
or a numeric literal. -/
def parseBody (l : List Char) : Option PyFloat :=
  let low := l.map Char.toLower
  if low = ['i', 'n', 'f'] || low = ['i', 'n', 'f', 'i', 'n', 'i', 't', 'y'] then
    some .pinf
  else if low = ['n', 'a', 'n'] then
    some .nan
  else
    (parseNumeric l).map .fin

/-- Negation on `PyFloat` (for a leading `-` sign; `-nan` is NaN). -/
def pyNeg : PyFloat → PyFloat
  | .fin q => .fin (-q)
  | .pinf => .ninf
  | .ninf => .pinf
  | .nan => .nan

/-- Model of Python `float(s)` on strings: strip whitespace, optional sign,
then an `inf`/`nan` word or a numeric literal.  `none` models a raised
`ValueError`. -/
def pyFloat (s : String) : Option PyFloat :=
  let l := (s.toList.dropWhile isPyWS).reverse.dropWhile isPyWS |>.reverse
  match l with
  | '+' :: r => parseBody r
  | '-' :: r => (parseBody r).map pyNeg
  | r => parseBody r

/-- Python `str.lower()` (ASCII case mapping, like Lean's `Char.toLower`),
implemented over the character list so that it evaluates by reduction. -/
def lowerStr (s : String) : String := String.mk (s.data.map Char.toLower)

/-- Source `is_null` (line 195): `val.lower() in ["", " ", ".", "-", "na", "nan"]`. -/
def is_null (val : String) : Bool :=
  (["", " ", ".", "-", "na", "nan"] : List String).contains (lowerStr val)

/-! ## Constants of the source (lines 113-174) -/

def GOOD_ENTRY : ℕ := 0
def MISSING_P_VALUE : ℕ := 1
def INVALID_ENTRY : ℕ := 2

def INVALID_ROW : ℕ := 0
def INVALID_RSID : ℕ := 1
def INVALID_CHR : ℕ := 2
def INVALID_BP : ℕ := 3
def INVALID_EA : ℕ := 4
def INVALID_OA : ℕ := 5
def INVALID_EAF : ℕ := 6
def INVALID_SE : ℕ := 7
def INVALID_ES : ℕ := 8

/-- Number of issue kinds (`len(ISSUES)` = 9). -/
def NUM_ISSUES : ℕ := 9

def NUCLEOTIDES : List Char := ['a', 't', 'c', 'g']
def NO_NUCLEOTIDE : String := "."

def ALLOW_MULTI_NUCLEOTIDE_POLYMORPHISMS : Bool := true

def CATEGORY_CHR : List String :=
  ["1", "01", "2", "02", "3", "03", "4", "04", "5", "05", "6", "06", "7", "07",
   "8", "08", "9", "09",
   "10", "11", "12", "13", "14", "15", "16", "17", "18", "19", "20",
   "21", "22", "23", "X", "x", "Y", "y", "M", "m"]

/-- The `"standard"` column-index map (source lines 56-69). -/
def cols_std : List (String × ℕ) :=
  [("Chr", 0), ("BP", 1), ("rsID", 2), ("OA", 3), ("EA", 4), ("EAF", 5),
   ("beta", 6), ("SE", 7), ("pval", 8), ("N", 9), ("INFO", 10)]

/-- Lookup function of the standard map. -/
def stdCols (name : String) : Option ℕ := cols_std.lookup name

/-! ## Per-field checks of `check_row` (source lines 207-342)

A column-index mapping is modelled as `String → Option ℕ` (a `KeyError` on a
missing name is `none`); `line_cols[cols_i[name]]` is modelled by
`lookupField`, where an `IndexError` is again `none`. -/

/-- `line_cols[cols_i[name]]` with `KeyError`/`IndexError` as `none`. -/
def lookupField (cols : String → Option ℕ) (row : List String) (name : String) :
    Option String :=
  (cols name).bind (fun i => row.get? i)

/-- Step 1 of `check_row` (lines 228-234): the p-value field.  `none` models
the `return None, MISSING_P_VALUE, issues` paths: absent column, index out of
range, null-like field, unparsable field, or value outside `[0, 1]`
(an infinity or NaN fails the chained comparison `0 <= v <= 1`). -/
def pvalCheck (cols : String → Option ℕ) (row : List String) : Option ℚ :=
  match lookupField cols row "pval" with
  | none => none
  | some s =>
    if is_null s then none
    else
      match pyFloat s with
      | some (.fin q) => if 0 ≤ q ∧ q ≤ 1 then some q else none
      | some _ => none
      | none => none

/-- Lines 238-247: read the eight remaining fields; any failure is the
`except` branch that sets `INVALID_ROW`. -/
def structFields (cols : String → Option ℕ) (row : List String) :
    Option (String × String × String × String × String × String × String × String) := do
  let rsid ← lookupField cols row "rsID"
  let chrom ← lookupField cols row "Chr"
  let bp ← lookupField cols row "BP"
  let ea ← lookupField cols row "EA"
  let oa ← lookupField cols row "OA"
  let af ← lookupField cols row "EAF"
  let se ← lookupField cols row "SE"
  let es ← lookupField cols row "beta"
  pure (rsid, chrom, bp, ea, oa, af, se, es)

/-- Check 1 (lines 256-260): `re.match("^rs\d+$", rsid)` — `rs` followed by
one or more digits. -/
def rsid_issue (s : String) : Bool :=
  match s.toList with
  | 'r' :: 's' :: ds => !(!ds.isEmpty && ds.all Char.isDigit)
  | _ => true

/-- Check 2 (lines 263-267): `chrom not in CATEGORY_CHR and chrom[3:] not in
CATEGORY_CHR` — note the slice drops the first three characters whatever they
are. -/
def chr_issue (s : String) : Bool :=
  !(CATEGORY_CHR.contains s || CATEGORY_CHR.contains (s.drop 3))

/-- Truncation of Python `int(float)`: toward zero on finite values
(`Int.tdiv` of numerator by denominator); `none` models the exception `int`
raises on an infinity or NaN. -/
def pyTrunc : PyFloat → Option ℤ
  | .fin q => some (q.num.tdiv q.den)
  | _ => none

/-- Check 3 (lines 270-275): `bp = int(float(bp)); if bp < 0` with the
`except` branch flagging. -/
def bp_issue (s : String) : Bool :=
  match pyFloat s with
  | some v =>
    match pyTrunc v with
    | some n => decide (n < 0)
    | none => true
  | none => true

/-- Checks 4 and 5 (lines 278-307): effect/other allele. -/
def allele_issue (a : String) : Bool :=
  if a = "" then true
  else if a = NO_NUCLEOTIDE then false
  else if ALLOW_MULTI_NUCLEOTIDE_POLYMORPHISMS then
    !((lowerStr a).data.all (fun c => NUCLEOTIDES.contains c))
  else
    !((NUCLEOTIDES.map Char.toString).contains (lowerStr a))

/-- Check 6 (lines 310-314): `not (0 <= float(af) <= 1)` with `except`
flagging; the chained comparison is false on an infinity or NaN. -/
def eaf_issue (s : String) : Bool :=
  match pyFloat s with
  | some (.fin q) => !(decide (0 ≤ q) && decide (q ≤ 1))
  | some _ => true
  | none => true

/-- Checks 7 and 8 (lines 317-330): `float(x)` must succeed and `x` must not
be null-like (note `float("nan")` succeeds, so `"nan"` is caught by
`is_null`). -/
def senum_issue (s : String) : Bool :=
  match pyFloat s with
  | some _ => is_null s
  | none => true

/-- The row validator `check_row` (lines 207-342).  Returns the p-value (when
one was parsed), the verdict (`GOOD_ENTRY`/`MISSING_P_VALUE`/`INVALID_ENTRY`)
and the nine issue flags in source order. -/
def check_row (cols : String → Option ℕ) (line_cols : List String) :
    Option ℚ × ℕ × List Bool :=
  match pvalCheck cols line_cols with
  | none => (none, MISSING_P_VALUE, List.replicate NUM_ISSUES false)
  | some pval =>
    match structFields cols line_cols with
    | none =>
      -- issues[INVALID_ROW] = True, all others still False
      (some pval, INVALID_ENTRY,
        [true, false, false, false, false, false, false, false, false])
    | some (rsid, chrom, bp, ea, oa, af, se, es) =>
      let issues : List Bool :=
        [false, rsid_issue rsid, chr_issue chrom, bp_issue bp,
         allele_issue ea, allele_issue oa, eaf_issue af,
         senum_issue se, senum_issue es]
      if issues.any id then (some pval, INVALID_ENTRY, issues)
      else (some pval, GOOD_ENTRY, issues)

/-! ## Streaming classification pass (source lines 362-389)

`readline()` on an exhausted file returns `""`, which splits to `[""]` and is
classified by `check_row` (whose own `except` turns the out-of-range p-value
lookup into `MISSING_P_VALUE`).  The loop stops only when `snp_i` reaches the
pre-counted array length `n` and the numpy write raises `IndexError`, so
exactly slots `0..n-1` are written. -/

/-- One classified row: stored p-value, report, issue flags. -/
abbrev RowResult := Option ℚ × ℕ × List Bool

/-- `readline` at index `i` of the post-header lines: `""` past the end. -/
def readLine (lines : List String) (i : ℕ) : String := lines.getD i ""

/-- Split a character list at every occurrence of `sep` (Python
`str.split(sep)`: splitting the empty string gives `[""]`). -/
def splitOnChar (sep : Char) : List Char → List (List Char)
  | [] => [[]]
  | c :: rest =>
    match splitOnChar sep rest with
    | [] => [[c]]
    | g :: gs => if c = sep then [] :: g :: gs else (c :: g) :: gs

/-- `line.replace('\n','').split(separator)` with `separator = '\t'`:
removing every newline character, then splitting at tabs. -/
def splitRow (s : String) : List String :=
  (splitOnChar '\t' (s.data.filter (fun c => c ≠ '\n'))).map String.mk

/-- The population loop of STEP 1: the three parallel arrays, as the list of
the `n` written slots. -/
def classifyPass (cols : String → Option ℕ) (lines : List String) (n : ℕ) :
    List RowResult :=
  (List.range n).map (fun i => check_row cols (splitRow (readLine lines i)))

/-! ## Aggregator (source lines 458-482) -/

/-- The four count stores of STEP 2.3: `missing_pval_bins`, `good_entry_bins`,
`invalid_entry_bins`, `invalid_entry_bins_reason_bins`. -/
structure Bins where
  missing : List ℕ
  good : List ℕ
  invalid : List ℕ
  reasons : List (List ℕ)
deriving DecidableEq, Repr

/-- `bins[j] += 1`. -/
def incAt (l : List ℕ) (j : ℕ) : List ℕ := l.set j (l.getD j 0 + 1)

/-- `invalid_entry_bins_reason_bins[j] += SNPs_issues[line_i]` (numpy adds the
boolean vector elementwise). -/
def addIssues (m : List (List ℕ)) (j : ℕ) (iss : List Bool) : List (List ℕ) :=
  m.set j (List.zipWith (fun c b => c + if b then 1 else 0) (m.getD j []) iss)

/-- The inner scan `for j in range(1, len(ticks)): if p <= ticks[j]: ...
break`: the first bucket index `j ≥ 1` with `p ≤ ticks[j]`, if any. -/
def findBin (ticks : List ℚ) (p : ℚ) : Option ℕ :=
  (List.range' 1 (ticks.length - 1)).find? (fun j => decide (p ≤ ticks.getD j 0))

/-- The body of the aggregation loop for one classified row.  For a
`GOOD_ENTRY`/`INVALID_ENTRY` row the stored p-value is read (such rows always
carry one — see `check_row_wf`); `getD 0` stands for the array slot. -/
def aggStep (ticks : List ℚ) (st : Bins) (r : RowResult) : Bins :=
  if r.2.1 = MISSING_P_VALUE then
    { st with missing := incAt st.missing 0 }
  else if r.2.1 = GOOD_ENTRY then
    match findBin ticks (r.1.getD 0) with
    | some j => { st with good := incAt st.good j }
    | none => st
  else if r.2.1 = INVALID_ENTRY then
    match findBin ticks (r.1.getD 0) with
    | some j => { st with invalid := incAt st.invalid j,
                          reasons := addIssues st.reasons j r.2.2 }
    | none => st
  else st

/-- The zero-initialised count stores (lines 458-462). -/
def initBins (ticks : List ℚ) : Bins where
  missing := List.replicate ticks.length 0
  good := List.replicate ticks.length 0
  invalid := List.replicate ticks.length 0
  reasons := List.replicate ticks.length (List.replicate NUM_ISSUES 0)

/-- The whole aggregation loop of STEP 2.3. -/
def aggregate (ticks : List ℚ) (rows : List RowResult) : Bins :=
  rows.foldl (aggStep ticks) (initBins ticks)

end GWAS

/-! ## Bucket geometry (source lines 417-432), over the reals

`np.log10` is modelled by `Real.logb 10`; the widths are exact reals. -/

namespace GWAS

inductive TicksWidthRule where
  | even
  | log10

/-- `bars_widths` (lines 417-432): first bar has width 1; under `'even'`
every further bar has width 1; under `'log10'` bar `i` has width
`(log10 ticks[i] - log10 ticks[i-1]) / unit_width` where
`unit_width = log10 1 - log10 1e-2`, except width 2 when `ticks[i-1] == 0`. -/
noncomputable def bars_widths (rule : TicksWidthRule) (ticks : List ℝ) : List ℝ :=
  1 ::
    match rule with
    | .even => (List.range' 1 (ticks.length - 1)).map (fun _ => 1)
    | .log10 =>
      (List.range' 1 (ticks.length - 1)).map (fun i =>
        if ticks.getD (i - 1) 0 = 0 then 2
        else (Real.logb 10 (ticks.getD i 0) - Real.logb 10 (ticks.getD (i - 1) 0)) /
          (Real.logb 10 1 - Real.logb 10 (1 / 100)))

/-! ## Spec-side definition for the chromosome claim

The spec describes the accepted chromosome values as: the raw value, or the
value with a case-insensitive `"chr"` prefix stripped.  The source instead
strips the first three characters unconditionally. -/

/-- Modelled from the spec: chromosome accepted when the raw field is in the
category set, or the field carries a case-insensitive `"chr"` prefix and the
field with that 3-character prefix stripped is in the category set. -/
def spec_chr_accept (s : String) : Bool :=
  CATEGORY_CHR.contains s ||
    ((lowerStr s).data.take 3 = ['c', 'h', 'r'] && CATEGORY_CHR.contains (s.drop 3))

/-! ## Well-formedness of `check_row` results -/

/-- The only `some`-producing branch of `pvalCheck` has passed the range
test. -/
theorem pvalCheck_some {cols : String → Option ℕ} {row : List String} {q : ℚ}
    (h : pvalCheck cols row = some q) : 0 ≤ q ∧ q ≤ 1 := by
  unfold pvalCheck at h
  repeat' split at h
  all_goals simp_all

/-- Shape of every `check_row` result: a `MISSING_P_VALUE` verdict carries no
p-value and all-false flags; a `GOOD_ENTRY` or `INVALID_ENTRY` verdict
carries a p-value in `[0, 1]`. -/
theorem check_row_wf (cols : String → Option ℕ) (row : List String) :
    ((check_row cols row).2.1 = MISSING_P_VALUE ∧ (check_row cols row).1 = none ∧
      (check_row cols row).2.2 = List.replicate NUM_ISSUES false) ∨
    (((check_row cols row).2.1 = GOOD_ENTRY ∨ (check_row cols row).2.1 = INVALID_ENTRY) ∧
      ∃ q, (check_row cols row).1 = some q ∧ 0 ≤ q ∧ q ≤ 1) := by
  unfold check_row
  split
  · exact Or.inl ⟨rfl, rfl, rfl⟩
  · rename_i q hp
    have hq := pvalCheck_some hp
    split
    · exact Or.inr ⟨Or.inr rfl, q, rfl, hq⟩
    · dsimp only
      split
      · exact Or.inr ⟨Or.inr rfl, q, rfl, hq⟩
      · exact Or.inr ⟨Or.inl rfl, q, rfl, hq⟩

/-! ## Claim C1: the spec's example row under the standard column map -/

/-- The example row of the spec. -/
def c1_row : List String :=
  ["rs123", "chr7", "10500", "A", "G", "0.3", "0.01", "0.02", "0.04"]

/-- C1 fails on the code: under the standard map `Chr = 0`, `BP = 1`,
`rsID = 2`, the rsID field is `"10500"` and the BP field is `"chr7"`, so the
verdict is not `Good`. -/
theorem c1_counterexample : (check_row stdCols c1_row).2.1 ≠ GOOD_ENTRY := by decide

/-- C1 amended: under the standard column-index map the example row is
classified `INVALID_ENTRY` with p-value `0.04 = 1/25`, with exactly the rsID
and BP flags set (the Chr flag stays false because `"rs123"[3:] = "23"` is in
the chromosome category set). -/
theorem c1_amended :
    check_row stdCols c1_row =
      (some (Rat.divInt 1 25), INVALID_ENTRY,
        [false, true, false, true, false, false, false, false, false]) := by decide

/-! ## Claim C4: the chromosome check -/

/-- Inversion of the structural read: the second component is the `Chr`
field. -/
theorem structFields_chr {cols : String → Option ℕ} {row : List String}
    {rsid chrom bp ea oa af se es : String}
    (h : structFields cols row = some (rsid, chrom, bp, ea, oa, af, se, es)) :
    lookupField cols row "Chr" = some chrom := by
  simp only [structFields, Bind.bind, Option.bind_eq_some, Option.pure_def,
    Option.some.injEq, Prod.mk.injEq] at h
  obtain ⟨a, ha, b, hb, c, hc, d, hd, e, he, f, hf, g, hg, k, hk,
    h1, h2, h3, h4, h5, h6, h7, h8⟩ := h
  subst h2
  exact hb

/-- A row on which the claim's chromosome rule disagrees with the code:
`Chr = "abc7"`. -/
def c4_row : List String :=
  ["abc7", "100", "rs1", "a", "a", "0.5", "0.1", "0.1", "0.5"]

/-- C4 fails on the code: for `Chr = "abc7"` the code leaves the chromosome
flag false (it strips the first three characters unconditionally, and `"7"`
is in the category set), yet `"abc7"` neither is in the category set nor has
a case-insensitive `"chr"` prefix. -/
theorem c4_counterexample :
    lookupField stdCols c4_row "Chr" = some "abc7" ∧
    (check_row stdCols c4_row).2.2.getD INVALID_CHR true = false ∧
    spec_chr_accept "abc7" = false := by decide

/-- C4 amended: for every row that reaches the per-field checks (verdict not
`MissingPValue`, malformed-row flag false), the chromosome flag is left false
exactly when the raw `Chr` field, or the field with its first three
characters stripped (whatever they are), is a member of the chromosome
category set. -/
theorem c4_amended (cols : String → Option ℕ) (row : List String) (chrom : String)
    (h1 : (check_row cols row).2.1 ≠ MISSING_P_VALUE)
    (h2 : (check_row cols row).2.2.getD INVALID_ROW true = false)
    (h3 : lookupField cols row "Chr" = some chrom) :
    ((check_row cols row).2.2.getD INVALID_CHR true = false ↔
      (chrom ∈ CATEGORY_CHR ∨ chrom.drop 3 ∈ CATEGORY_CHR)) := by
  rcases hp : pvalCheck cols row with - | q
  · exfalso
    apply h1
    unfold check_row
    rw [hp]
  · rcases hs : structFields cols row with - | ⟨rsid, chrom', bp, ea, oa, af, se, es⟩
    · exfalso
      have hrow : (check_row cols row).2.2.getD INVALID_ROW true = true := by
        unfold check_row
        rw [hp]
        dsimp only
        rw [hs]
        rfl
      rw [h2] at hrow
      exact Bool.noConfusion hrow
    · have hcc : chrom = chrom' := by
        have hc := structFields_chr hs
        rw [h3] at hc
        injection hc
      subst hcc
      have key : (check_row cols row).2.2 =
          [false, rsid_issue rsid, chr_issue chrom, bp_issue bp,
           allele_issue ea, allele_issue oa, eaf_issue af,
           senum_issue se, senum_issue es] := by
        unfold check_row
        rw [hp]
        dsimp only
        rw [hs]
        dsimp only
        split <;> rfl
      rw [key]
      show chr_issue chrom = false ↔ _
      simp only [chr_issue, List.contains, Bool.not_eq_false', Bool.or_eq_true,
        List.elem_eq_mem, decide_eq_true_eq]


/-- Witness for the amended C4 at a row whose `Chr` field is `"chr7"`. -/
theorem c4_witness :
    (check_row stdCols ["chr7", "100", "rs1", "a", "a", "0.5", "0.1", "0.1", "0.5"]).2.1 ≠
      MISSING_P_VALUE ∧
    (check_row stdCols ["chr7", "100", "rs1", "a", "a", "0.5", "0.1", "0.1", "0.5"]).2.2.getD
      INVALID_ROW true = false ∧
    lookupField stdCols ["chr7", "100", "rs1", "a", "a", "0.5", "0.1", "0.1", "0.5"] "Chr" =
      some "chr7" ∧
    ((check_row stdCols ["chr7", "100", "rs1", "a", "a", "0.5", "0.1", "0.1", "0.5"]).2.2.getD
        INVALID_CHR true = false ↔
      ("chr7" ∈ CATEGORY_CHR ∨ ("chr7" : String).drop 3 ∈ CATEGORY_CHR)) :=
  ⟨by decide, by decide, by decide,
    c4_amended stdCols ["chr7", "100", "rs1", "a", "a", "0.5", "0.1", "0.1", "0.5"] "chr7"
      (by decide) (by decide) (by decide)⟩

/-! ## Claim C5: priority and constancy of the missing-p-value verdict -/

/-- The chained comparison `0 <= v <= 1` of the source; false on an infinity
or NaN. -/
def inUnitInterval : PyFloat → Bool
  | .fin q => decide (0 ≤ q) && decide (q ≤ 1)
  | _ => false

/-- C5: when the pval column index is out of range, or the field is
null-like, or it fails to parse, or it parses to a value for which
`0 <= v <= 1` fails, `check_row` returns `MissingPValue` with no p-value and
all-false flags — independent of every other field, so this check takes
priority over the structural and per-field checks. -/
theorem c5_missing_priority (cols : String → Option ℕ) (row : List String) (k : ℕ)
    (hk : cols "pval" = some k)
    (hcond : row.length ≤ k ∨
      ∃ s, row.get? k = some s ∧
        (is_null s = true ∨ pyFloat s = none ∨
          ∃ v, pyFloat s = some v ∧ inUnitInterval v = false)) :
    check_row cols row = (none, MISSING_P_VALUE, List.replicate NUM_ISSUES false) := by
  have hlook : lookupField cols row "pval" = row.get? k := by
    unfold lookupField
    rw [hk]
    rfl
  have hpv : pvalCheck cols row = none := by
    unfold pvalCheck
    rw [hlook]
    rcases hcond with h | ⟨s, hs, hcase⟩
    · rw [List.get?_eq_none.mpr h]
    · rw [hs]
      dsimp only
      rcases hcase with hnull | hparse | ⟨v, hv, hvr⟩
      · rw [if_pos hnull]
      · by_cases hn : is_null s = true
        · rw [if_pos hn]
        · rw [if_neg hn, hparse]
      · by_cases hn : is_null s = true
        · rw [if_pos hn]
        · rw [if_neg hn, hv]
          rcases v with q | - | - | -
          · dsimp only
            have hneg : ¬(0 ≤ q ∧ q ≤ 1) := by
              simp only [inUnitInterval, Bool.and_eq_false_iff,
                decide_eq_false_iff_not] at hvr
              rcases hvr with h | h
              · exact fun hc => h hc.1
              · exact fun hc => h hc.2
            rw [if_neg hneg]
          · rfl
          · rfl
          · rfl
  unfold check_row
  rw [hpv]

/-- Witness for C5 at the row of the spec's `pval = "NA"` example. -/
theorem c5_witness :
    stdCols "pval" = some 8 ∧
    (["rs1", "1", "100", "a", "a", "0.5", "0.1", "0.1", "NA"] : List String).get? 8 =
      some "NA" ∧
    is_null "NA" = true ∧
    check_row stdCols ["rs1", "1", "100", "a", "a", "0.5", "0.1", "0.1", "NA"] =
      (none, MISSING_P_VALUE, List.replicate NUM_ISSUES false) :=
  ⟨by decide, by decide, by decide,
    c5_missing_priority stdCols ["rs1", "1", "100", "a", "a", "0.5", "0.1", "0.1", "NA"] 8
      (by decide) (Or.inr ⟨"NA", by decide, Or.inl (by decide)⟩)⟩

/-! ## Claim C8: totality of `check_row` -/

/-- C8: `check_row` is total — on every row and every column-index mapping it
returns one of the three verdicts together with a nine-element issue-flag
list; every exception of the source is caught inside the function (modelled
by the `none` cases of its `Option`-valued pieces). -/
theorem c8_total (cols : String → Option ℕ) (row : List String) :
    ((check_row cols row).2.1 = GOOD_ENTRY ∨ (check_row cols row).2.1 = MISSING_P_VALUE ∨
      (check_row cols row).2.1 = INVALID_ENTRY) ∧
    (check_row cols row).2.2.length = NUM_ISSUES := by
  constructor
  · rcases check_row_wf cols row with ⟨h, -, -⟩ | ⟨h | h, -⟩
    · exact Or.inr (Or.inl h)
    · exact Or.inl h
    · exact Or.inr (Or.inr h)
  · unfold check_row
    split
    · rfl
    · split
      · rfl
      · dsimp only
        split <;> rfl

/-! ## Claim C9: verdict/flag consistency -/

/-- C9: every row gets exactly one of the three verdicts, and: `Good` comes
with all nine flags false, `MissingPValue` with no recorded p-value, and
`Invalid` with at least one flag set. -/
theorem c9_verdict_consistency (cols : String → Option ℕ) (row : List String) :
    ((check_row cols row).2.1 = GOOD_ENTRY ∧
      (check_row cols row).2.2 = List.replicate NUM_ISSUES false) ∨
    ((check_row cols row).2.1 = MISSING_P_VALUE ∧ (check_row cols row).1 = none) ∨
    ((check_row cols row).2.1 = INVALID_ENTRY ∧ (check_row cols row).2.2.any id = true) := by
  unfold check_row
  split
  · exact Or.inr (Or.inl ⟨rfl, rfl⟩)
  · split
    · exact Or.inr (Or.inr ⟨rfl, rfl⟩)
    · dsimp only
      split
      · rename_i ha
        exact Or.inr (Or.inr ⟨rfl, ha⟩)
      · rename_i ha
        refine Or.inl ⟨rfl, ?_⟩
        simp only [List.any_cons, List.any_nil, id_eq, Bool.or_eq_true, not_or] at ha
        obtain ⟨-, h1, h2, h3, h4, h5, h6, h7, h8, -⟩ := ha
        simp only [Bool.not_eq_true] at h1 h2 h3 h4 h5 h6 h7 h8
        rw [h1, h2, h3, h4, h5, h6, h7, h8]
        rfl

/-! ## The bucket-scan: characterisation of `findBin` -/

/-- `find?` on a contiguous range returns exactly the least index in the
range satisfying the predicate. -/
theorem find?_range'_eq_some {P : ℕ → Bool} {n : ℕ} :
    ∀ {s j : ℕ}, (List.range' s n).find? P = some j ↔
      (s ≤ j ∧ j < s + n ∧ P j = true ∧ ∀ k, s ≤ k → k < j → P k = false) := by
  induction n with
  | zero =>
    intro s j
    simp only [List.range'_zero, List.find?_nil]
    constructor
    · intro h
      exact absurd h (by simp)
    · rintro ⟨h1, h2, -⟩
      omega
  | succ n ih =>
    intro s j
    rw [List.range'_succ]
    by_cases hP : P s = true
    · simp only [List.find?_cons_of_pos _ hP, Option.some.injEq]
      constructor
      · rintro rfl
        exact ⟨le_refl s, by omega, hP, fun k hk1 hk2 => absurd (lt_of_le_of_lt hk1 hk2) (lt_irrefl s)⟩
      · rintro ⟨h1, h2, h3, h4⟩
        rcases Nat.eq_or_lt_of_le h1 with rfl | hlt
        · rfl
        · exact absurd hP (by rw [h4 s (le_refl s) hlt]; simp)
    · rw [List.find?_cons_of_neg _ hP, ih]
      have hPs : P s = false := by
        revert hP
        cases P s <;> simp
      constructor
      · rintro ⟨h1, h2, h3, h4⟩
        refine ⟨by omega, by omega, h3, fun k hk1 hk2 => ?_⟩
        rcases Nat.eq_or_lt_of_le hk1 with rfl | hk
        · exact hPs
        · exact h4 k hk hk2
      · rintro ⟨h1, h2, h3, h4⟩
        have hsj : s ≠ j := by
          rintro rfl
          rw [hPs] at h3
          exact Bool.noConfusion h3
        exact ⟨by omega, by omega, h3, fun k hk1 hk2 => h4 k (by omega) hk2⟩

/-- `findBin` finds exactly the first bucket index `j ≥ 1` with
`p ≤ ticks[j]`. -/
theorem findBin_eq_some_iff {ticks : List ℚ} {p : ℚ} {j : ℕ} :
    findBin ticks p = some j ↔
      (1 ≤ j ∧ j < ticks.length ∧ p ≤ ticks.getD j 0 ∧
        ∀ k, 1 ≤ k → k < j → ticks.getD k 0 < p) := by
  unfold findBin
  rw [find?_range'_eq_some]
  simp only [decide_eq_true_eq, decide_eq_false_iff_not, not_le]
  constructor
  · rintro ⟨h1, h2, h3, h4⟩
    exact ⟨h1, by omega, h3, h4⟩
  · rintro ⟨h1, h2, h3, h4⟩
    exact ⟨h1, by omega, h3, h4⟩

/-- On a sorted tick list, a p-value above the last tick is assigned to no
bucket. -/
theorem findBin_none_of_gt_last {ticks : List ℚ} {p t : ℚ}
    (hsort : List.Sorted (· ≤ ·) ticks) (hlast : ticks.getLast? = some t)
    (ht : t < p) : findBin ticks p = none := by
  unfold findBin
  rw [List.find?_eq_none]
  intro k hk
  rw [List.mem_range'_1] at hk
  have hlen : 1 ≤ ticks.length := by
    rcases ticks with - | ⟨a, l⟩
    · exact absurd hlast (by simp)
    · simp
  have hk2 : k < ticks.length := by omega
  simp only [decide_eq_true_eq, not_le]
  have hkd : ticks.getD k 0 = ticks.get ⟨k, hk2⟩ := by
    rw [List.getD_eq_getElem?_getD, List.getElem?_eq_getElem hk2]
    rfl
  have hld : t = ticks.get ⟨ticks.length - 1, by omega⟩ := by
    rw [List.getLast?_eq_getElem?, List.getElem?_eq_getElem (by omega)] at hlast
    injection hlast with h
    exact h.symm
  rcases Nat.lt_or_ge k (ticks.length - 1) with hcase | hcase
  · have hmono := List.pairwise_iff_get.mp hsort ⟨k, hk2⟩ ⟨ticks.length - 1, by omega⟩ hcase
    rw [hkd]
    exact lt_of_le_of_lt (le_trans hmono (le_of_eq hld.symm)) ht
  · have hkeq : k = ticks.length - 1 := by omega
    rw [hkd]
    have : ticks.get ⟨k, hk2⟩ = t := by
      rw [hld]
      congr 1
      exact Fin.ext hkeq
    rw [this]
    exact ht

/-! ## Claim C6: the bucketing rule -/

/-- C6: a `Good` or `Invalid` row with p-value `p` is assigned to the first
bucket `j ≥ 1` with `p ≤ ticks[j]` (so a tie goes to the bucket ending at
that boundary, and the assignment is unique); on a sorted tick list a
p-value above the last tick is assigned to no bucket; and a `MissingPValue`
row increments only the bucket-0 missing count. -/
theorem c6_bucketing (ticks : List ℚ) (p : ℚ) (st : Bins) (iss : List Bool) (j : ℕ) :
    (findBin ticks p = some j ↔
      (1 ≤ j ∧ j < ticks.length ∧ p ≤ ticks.getD j 0 ∧
        ∀ k, 1 ≤ k → k < j → ticks.getD k 0 < p)) ∧
    (∀ t, List.Sorted (· ≤ ·) ticks → ticks.getLast? = some t → t < p →
      findBin ticks p = none) ∧
    (findBin ticks p = some j →
      aggStep ticks st (some p, GOOD_ENTRY, iss) =
        { st with good := incAt st.good j } ∧
      aggStep ticks st (some p, INVALID_ENTRY, iss) =
        { st with invalid := incAt st.invalid j,
                  reasons := addIssues st.reasons j iss }) ∧
    (findBin ticks p = none →
      aggStep ticks st (some p, GOOD_ENTRY, iss) = st ∧
      aggStep ticks st (some p, INVALID_ENTRY, iss) = st) ∧
    aggStep ticks st (none, MISSING_P_VALUE, iss) =
      { st with missing := incAt st.missing 0 } := by
  refine ⟨findBin_eq_some_iff, fun t hs hl ht => findBin_none_of_gt_last hs hl ht, ?_, ?_, ?_⟩
  · intro hj
    constructor
    · unfold aggStep
      dsimp only [Option.getD]
      rw [if_neg (by decide : ¬(GOOD_ENTRY = MISSING_P_VALUE)), if_pos rfl, hj]
    · unfold aggStep
      dsimp only [Option.getD]
      rw [if_neg (by decide : ¬(INVALID_ENTRY = MISSING_P_VALUE)),
        if_neg (by decide : ¬(INVALID_ENTRY = GOOD_ENTRY)), if_pos rfl, hj]
  · intro hj
    constructor
    · unfold aggStep
      dsimp only [Option.getD]
      rw [if_neg (by decide : ¬(GOOD_ENTRY = MISSING_P_VALUE)), if_pos rfl, hj]
    · unfold aggStep
      dsimp only [Option.getD]
      rw [if_neg (by decide : ¬(INVALID_ENTRY = MISSING_P_VALUE)),
        if_neg (by decide : ¬(INVALID_ENTRY = GOOD_ENTRY)), if_pos rfl, hj]
  · unfold aggStep
    dsimp only [Option.getD]
    rw [if_pos rfl]

/-- Witness for C6: with ticks `[0, 1]` the p-value `1/2` goes to bucket 1. -/
theorem c6_witness : findBin [0, 1] (Rat.divInt 1 2) = some 1 :=
  (c6_bucketing [0, 1] (Rat.divInt 1 2) (initBins [0, 1])
      (List.replicate NUM_ISSUES false) 1).1.mpr
    ⟨by decide, by decide, by decide, fun k hk1 hk2 => absurd (lt_of_le_of_lt hk1 hk2) (by omega)⟩

/-! ## Counting helpers for the aggregator -/

theorem getD_incAt_self {l : List ℕ} {j : ℕ} (h : j < l.length) :
    (incAt l j).getD j 0 = l.getD j 0 + 1 := by
  unfold incAt
  rw [List.getD_eq_getElem?_getD, List.getElem?_set_self (by simpa using h)]
  rfl

theorem getD_incAt_ne {l : List ℕ} {i j : ℕ} (h : i ≠ j) :
    (incAt l i).getD j 0 = l.getD j 0 := by
  unfold incAt
  rw [List.getD_eq_getElem?_getD, List.getElem?_set_ne h, ← List.getD_eq_getElem?_getD]

theorem sum_incAt (l : List ℕ) (j : ℕ) (h : j < l.length) :
    (incAt l j).sum = l.sum + 1 := by
  unfold incAt
  rw [List.sum_set, if_pos h]
  have hd : l.getD j 0 = l.get ⟨j, h⟩ := by
    rw [List.getD_eq_getElem?_getD, List.getElem?_eq_getElem h]
    rfl
  have hsplit : l.sum = (l.take j).sum + (l.get ⟨j, h⟩ :: l.drop (j + 1)).sum := by
    conv_lhs => rw [← List.take_append_drop j l]
    rw [List.sum_append]
    congr 1
    rw [← List.getElem_cons_drop l j h]
    rfl
  rw [hsplit, List.sum_cons, hd]
  omega

/-- Shape invariant of classified rows: a missing row, or a row with a
p-value in `[0, 1]`. -/
def RowWF (r : RowResult) : Prop :=
  r.2.1 = MISSING_P_VALUE ∨
    ((r.2.1 = GOOD_ENTRY ∨ r.2.1 = INVALID_ENTRY) ∧ ∃ q, r.1 = some q ∧ 0 ≤ q ∧ q ≤ 1)

theorem check_row_rowWF (cols : String → Option ℕ) (row : List String) :
    RowWF (check_row cols row) := by
  rcases check_row_wf cols row with ⟨h, -, -⟩ | ⟨h, hq⟩
  · exact Or.inl h
  · exact Or.inr ⟨h, hq⟩

/-- The combined total `good + invalid + missing[0]` of the aggregator
state. -/
def totalGI (st : Bins) : ℕ := st.good.sum + st.invalid.sum + st.missing.getD 0 0

/-- If the last tick is `1` and there are at least two ticks, each
well-formed row increments the combined total by exactly one, and the array
lengths are preserved. -/
theorem aggStep_total (ticks : List ℚ) (st : Bins) (r : RowResult)
    (hg : st.good.length = ticks.length) (hi : st.invalid.length = ticks.length)
    (hm : st.missing.length = ticks.length)
    (hwf : RowWF r) (hlen2 : 2 ≤ ticks.length) (hlast : ticks.getLast? = some 1) :
    totalGI (aggStep ticks st r) = totalGI st + 1 ∧
    (aggStep ticks st r).good.length = ticks.length ∧
    (aggStep ticks st r).invalid.length = ticks.length ∧
    (aggStep ticks st r).missing.length = ticks.length := by
  obtain ⟨p?, rep, iss⟩ := r
  have hfind : ∀ q : ℚ, 0 ≤ q → q ≤ 1 → ∃ j, findBin ticks q = some j ∧ j < ticks.length := by
    intro q hq0 hq1
    have hlastD : ticks.getD (ticks.length - 1) 0 = 1 := by
      rw [List.getLast?_eq_getElem?] at hlast
      rw [List.getD_eq_getElem?_getD, hlast]
      rfl
    have hsome : (findBin ticks q).isSome := by
      unfold findBin
      rw [List.find?_isSome]
      refine ⟨ticks.length - 1, ?_, ?_⟩
      · rw [List.mem_range'_1]
        omega
      · rw [hlastD]
        simpa using hq1
    obtain ⟨j, hj⟩ := Option.isSome_iff_exists.mp hsome
    refine ⟨j, hj, ?_⟩
    exact (findBin_eq_some_iff.mp hj).2.1
  rcases hwf with hrep | ⟨hrep, q, hq, hq0, hq1⟩
  · simp only at hrep
    subst hrep
    unfold aggStep
    rw [if_pos rfl]
    refine ⟨?_, by simpa using hg, by simpa using hi, by simp [incAt, hm]⟩
    unfold totalGI
    simp only
    rw [getD_incAt_self (by omega)]
    omega
  · simp only at hrep hq
    subst hq
    rcases hrep with hrep | hrep <;> subst hrep
    · unfold aggStep
      dsimp only [Option.getD]
      rw [if_neg (by decide : ¬(GOOD_ENTRY = MISSING_P_VALUE)), if_pos rfl]
      obtain ⟨j, hj, hjlt⟩ := hfind q hq0 hq1
      rw [hj]
      refine ⟨?_, by simp [incAt, hg], by simpa using hi, by simpa using hm⟩
      unfold totalGI
      simp only
      rw [sum_incAt _ _ (by omega)]
      omega
    · unfold aggStep
      dsimp only [Option.getD]
      rw [if_neg (by decide : ¬(INVALID_ENTRY = MISSING_P_VALUE)),
        if_neg (by decide : ¬(INVALID_ENTRY = GOOD_ENTRY)), if_pos rfl]
      obtain ⟨j, hj, hjlt⟩ := hfind q hq0 hq1
      rw [hj]
      refine ⟨?_, by simpa using hg, by simp [incAt, hi], by simpa using hm⟩
      unfold totalGI
      simp only
      rw [sum_incAt _ _ (by omega)]
      omega

/-- Folding the aggregation step over well-formed rows adds the row count to
the combined total. -/
theorem aggLoop_total (ticks : List ℚ) (hlen2 : 2 ≤ ticks.length)
    (hlast : ticks.getLast? = some 1) :
    ∀ (rows : List RowResult) (st : Bins),
      (∀ r ∈ rows, RowWF r) →
      st.good.length = ticks.length → st.invalid.length = ticks.length →
      st.missing.length = ticks.length →
      totalGI (rows.foldl (aggStep ticks) st) = totalGI st + rows.length := by
  intro rows
  induction rows with
  | nil => intro st _ _ _ _; simp
  | cons r rest ih =>
    intro st hwf hg hi hm
    rw [List.foldl_cons]
    obtain ⟨ht, hlg, hli, hlm⟩ :=
      aggStep_total ticks st r hg hi hm (hwf r (List.mem_cons_self r rest)) hlen2 hlast
    rw [ih _ (fun x hx => hwf x (List.mem_cons_of_mem r hx)) hlg hli hlm, ht]
    simp only [List.length_cons]
    omega

/-! ## Claim C2: the counting invariant -/

/-- A row whose p-value is `1`, with ticks `[0, 1/2]` (strictly ascending,
first `≥ 0`, last `≤ 1`). -/
def c2_row : List String := ["x", "x", "x", "x", "x", "x", "x", "x", "1"]

/-- C2 fails on the code as stated: with ticks `[0, 1/2]` — a geometry the
claim allows — the single classified row (verdict `Invalid`, p-value `1`)
is dropped by the bucket scan, so the counts sum to `0`, not to the row
count `1`. -/
theorem c2_counterexample :
    List.Sorted (· < ·) ([0, Rat.divInt 1 2] : List ℚ) ∧
    (0 : ℚ) ≤ ([0, Rat.divInt 1 2] : List ℚ).getD 0 0 ∧
    ([0, Rat.divInt 1 2] : List ℚ).getLast? = some (Rat.divInt 1 2) ∧ Rat.divInt 1 2 ≤ 1 ∧
    (aggregate [0, Rat.divInt 1 2] ([c2_row].map (check_row stdCols))).good.sum +
        (aggregate [0, Rat.divInt 1 2] ([c2_row].map (check_row stdCols))).invalid.sum +
        (aggregate [0, Rat.divInt 1 2] ([c2_row].map (check_row stdCols))).missing.getD 0 0 ≠
      ([c2_row].map (check_row stdCols)).length := by decide

/-- C2 amended: the sum over buckets of good and invalid counts plus the
bucket-0 missing count equals the number of rows processed, for every
geometry with at least two strictly ascending ticks whose first tick is
`≥ 0` and whose last tick equals `1` (so that every p-value in `[0, 1]` is
assigned). -/
theorem c2_amended (cols : String → Option ℕ) (raws : List (List String))
    (ticks : List ℚ) (hsort : List.Sorted (· < ·) ticks) (hlen2 : 2 ≤ ticks.length)
    (hfirst : 0 ≤ ticks.getD 0 0) (hlast : ticks.getLast? = some 1) :
    (aggregate ticks (raws.map (check_row cols))).good.sum +
        (aggregate ticks (raws.map (check_row cols))).invalid.sum +
        (aggregate ticks (raws.map (check_row cols))).missing.getD 0 0 =
      raws.length := by
  show totalGI (aggregate ticks (raws.map (check_row cols))) = raws.length
  unfold aggregate
  rw [aggLoop_total ticks hlen2 hlast _ _
      (by
        intro r hr
        rw [List.mem_map] at hr
        obtain ⟨raw, -, rfl⟩ := hr
        exact check_row_rowWF cols raw)
      (by simp [initBins]) (by simp [initBins]) (by simp [initBins])]
  have hinit : totalGI (initBins ticks) = 0 := by
    unfold totalGI initBins
    simp only [List.sum_replicate, smul_eq_mul, mul_zero, List.getD_eq_getElem?_getD,
      List.getElem?_replicate]
    rw [if_pos (by omega : 0 < ticks.length)]
    rfl
  rw [hinit, List.length_map]
  omega

/-- Witness for C2 at ticks `[0, 1]` and one fully valid row. -/
theorem c2_witness :
    List.Sorted (· < ·) ([0, 1] : List ℚ) ∧ 2 ≤ ([0, 1] : List ℚ).length ∧
    (0 : ℚ) ≤ ([0, 1] : List ℚ).getD 0 0 ∧ ([0, 1] : List ℚ).getLast? = some 1 ∧
    (aggregate [0, 1] ([["1", "100", "rs1", "a", "a", "0.5", "0.1", "0.1", "0.04"]].map
          (check_row stdCols))).good.sum +
        (aggregate [0, 1] ([["1", "100", "rs1", "a", "a", "0.5", "0.1", "0.1", "0.04"]].map
          (check_row stdCols))).invalid.sum +
        (aggregate [0, 1] ([["1", "100", "rs1", "a", "a", "0.5", "0.1", "0.1", "0.04"]].map
          (check_row stdCols))).missing.getD 0 0 = 1 :=
  ⟨by decide, by decide, by decide, by decide,
    c2_amended stdCols [["1", "100", "rs1", "a", "a", "0.5", "0.1", "0.1", "0.04"]] [0, 1]
      (by decide) (by decide) (by decide) (by decide)⟩

/-! ## Claim C10: bucket 0 is missing-only, buckets 1+ are p-value-only -/

theorem getD_addIssues_ne {m : List (List ℕ)} {i j : ℕ} {iss : List Bool} (h : i ≠ j) :
    (addIssues m i iss).getD j [] = m.getD j [] := by
  unfold addIssues
  rw [List.getD_eq_getElem?_getD, List.getElem?_set_ne h, ← List.getD_eq_getElem?_getD]

/-- One aggregation step never touches the good/invalid/reason counts of
bucket 0, nor the missing count of any bucket `j ≥ 1`. -/
theorem aggStep_zero (ticks : List ℚ) (st : Bins) (r : RowResult) (j : ℕ) (hj : 1 ≤ j) :
    (aggStep ticks st r).good.getD 0 0 = st.good.getD 0 0 ∧
    (aggStep ticks st r).invalid.getD 0 0 = st.invalid.getD 0 0 ∧
    (aggStep ticks st r).reasons.getD 0 [] = st.reasons.getD 0 [] ∧
    (aggStep ticks st r).missing.getD j 0 = st.missing.getD j 0 := by
  unfold aggStep
  split
  · exact ⟨rfl, rfl, rfl, getD_incAt_ne (by omega)⟩
  · split
    · rcases hfb : findBin ticks (r.1.getD 0) with - | j'
      · exact ⟨rfl, rfl, rfl, rfl⟩
      · have hj' : 1 ≤ j' := (findBin_eq_some_iff.mp hfb).1
        exact ⟨getD_incAt_ne (by omega), rfl, rfl, rfl⟩
    · split
      · rcases hfb : findBin ticks (r.1.getD 0) with - | j'
        · exact ⟨rfl, rfl, rfl, rfl⟩
        · have hj' : 1 ≤ j' := (findBin_eq_some_iff.mp hfb).1
          exact ⟨rfl, getD_incAt_ne (by omega), getD_addIssues_ne (by omega), rfl⟩
      · exact ⟨rfl, rfl, rfl, rfl⟩

/-- C10: after aggregating any sequence of classified rows, bucket 0 has
zero good and invalid counts and an all-zero per-issue row, and every bucket
`j ≥ 1` has a zero missing count. -/
theorem c10_bucket_zero (ticks : List ℚ) (rows : List RowResult) (j : ℕ)
    (hlen : 1 ≤ ticks.length) (hj : 1 ≤ j) :
    (aggregate ticks rows).good.getD 0 0 = 0 ∧
    (aggregate ticks rows).invalid.getD 0 0 = 0 ∧
    (aggregate ticks rows).reasons.getD 0 [] = List.replicate NUM_ISSUES 0 ∧
    (aggregate ticks rows).missing.getD j 0 = 0 := by
  unfold aggregate
  suffices h : ∀ (st : Bins),
      st.good.getD 0 0 = 0 → st.invalid.getD 0 0 = 0 →
      st.reasons.getD 0 [] = List.replicate NUM_ISSUES 0 → st.missing.getD j 0 = 0 →
      (rows.foldl (aggStep ticks) st).good.getD 0 0 = 0 ∧
      (rows.foldl (aggStep ticks) st).invalid.getD 0 0 = 0 ∧
      (rows.foldl (aggStep ticks) st).reasons.getD 0 [] = List.replicate NUM_ISSUES 0 ∧
      (rows.foldl (aggStep ticks) st).missing.getD j 0 = 0 by
    refine h (initBins ticks) ?_ ?_ ?_ ?_ <;>
      · unfold initBins
        simp only [List.getD_eq_getElem?_getD, List.getElem?_replicate]
        split
        · rfl
        · first
          | rfl
          | omega
  induction rows with
  | nil => intro st h1 h2 h3 h4; exact ⟨h1, h2, h3, h4⟩
  | cons r rest ih =>
    intro st h1 h2 h3 h4
    rw [List.foldl_cons]
    obtain ⟨z1, z2, z3, z4⟩ := aggStep_zero ticks st r j hj
    exact ih _ (z1.trans h1) (z2.trans h2) (z3.trans h3) (z4.trans h4)

/-- Witness for C10 at ticks `[0, 1]`, one good row, bucket `j = 1`. -/
theorem c10_witness :
    1 ≤ ([0, 1] : List ℚ).length ∧ (1 : ℕ) ≤ 1 ∧
    ((aggregate [0, 1] [(some (Rat.divInt 1 2), GOOD_ENTRY, List.replicate NUM_ISSUES false)]).good.getD 0 0 = 0 ∧
      (aggregate [0, 1] [(some (Rat.divInt 1 2), GOOD_ENTRY, List.replicate NUM_ISSUES false)]).invalid.getD 0 0 = 0 ∧
      (aggregate [0, 1] [(some (Rat.divInt 1 2), GOOD_ENTRY, List.replicate NUM_ISSUES false)]).reasons.getD 0 [] = List.replicate NUM_ISSUES 0 ∧
      (aggregate [0, 1] [(some (Rat.divInt 1 2), GOOD_ENTRY, List.replicate NUM_ISSUES false)]).missing.getD 1 0 = 0) :=
  ⟨by decide, by decide,
    c10_bucket_zero [0, 1] [(some (Rat.divInt 1 2), GOOD_ENTRY, List.replicate NUM_ISSUES false)] 1
      (by decide) (by decide)⟩

/-! ## Claim C3: inputs shorter than the pre-counted length -/

/-- On the empty line (what `readline()` yields at end of file, split to
`[""]`), `check_row` returns `MissingPValue` under every column map: either
the pval index is out of range, or it hits the empty field, which is
null-like. -/
theorem check_row_empty_line (cols : String → Option ℕ) :
    check_row cols [""] = (none, MISSING_P_VALUE, List.replicate NUM_ISSUES false) := by
  have hpv : pvalCheck cols [""] = none := by
    unfold pvalCheck lookupField
    rcases hc : cols "pval" with - | k
    · rfl
    · cases k with
      | zero => rfl
      | succ m => rfl
  unfold check_row
  rw [hpv]

/-- C3 fails on the code: with an empty line source and a pre-counted length
of 1, the single tail slot IS written — with a `MissingPValue`
classification — and the aggregator counts it in bucket 0's missing
count. -/
theorem c3_counterexample :
    ([] : List String).length < 1 ∧
    classifyPass stdCols [] 1 = [(none, MISSING_P_VALUE, List.replicate NUM_ISSUES false)] ∧
    (aggregate [0, 1] (classifyPass stdCols [] 1)).missing.getD 0 0 = 1 := by decide

/-- C3 amended: when the line source yields fewer rows than the pre-counted
length `n`, the pass still populates all `n` slots; each slot beyond the
actually-read rows holds the `MissingPValue` classification of the empty
line read at end of file (and is therefore counted by the aggregator in
bucket 0's missing count). -/
theorem c3_amended (cols : String → Option ℕ) (lines : List String) (n i : ℕ)
    (h1 : lines.length ≤ i) (h2 : i < n) :
    (classifyPass cols lines n).length = n ∧
    (classifyPass cols lines n).get? i =
      some (none, MISSING_P_VALUE, List.replicate NUM_ISSUES false) := by
  constructor
  · unfold classifyPass
    rw [List.length_map, List.length_range]
  · unfold classifyPass
    rw [List.get?_eq_getElem?, List.getElem?_map, List.getElem?_range h2]
    have hline : readLine lines i = "" := by
      unfold readLine
      rw [List.getD_eq_getElem?_getD, List.getElem?_eq_none (by simpa using h1)]
      rfl
    have hsplit : splitRow (readLine lines i) = [""] := by
      rw [hline]
      decide
    dsimp only [Option.map]
    congr 1
    rw [hsplit]
    exact check_row_empty_line cols

/-- Witness for C3: empty input, pre-count 1, slot 0. -/
theorem c3_witness :
    ([] : List String).length ≤ 0 ∧ (0 : ℕ) < 1 ∧
    (classifyPass stdCols [] 1).length = 1 ∧
    (classifyPass stdCols [] 1).get? 0 =
      some (none, MISSING_P_VALUE, List.replicate NUM_ISSUES false) :=
  ⟨by decide, by decide, (c3_amended stdCols [] 1 0 (by decide) (by decide)).1,
    (c3_amended stdCols [] 1 0 (by decide) (by decide)).2⟩

/-! ## Claim C7: log10 bucket widths -/

/-- Position `i ≥ 1` of the width list is the log10 formula, with the
fixed width 2 when the left tick is zero. -/
theorem bars_widths_getD (ticks : List ℝ) (i : ℕ) (h1 : 1 ≤ i) (h2 : i < ticks.length) :
    (bars_widths .log10 ticks).getD i 0 =
      (if ticks.getD (i - 1) 0 = 0 then (2 : ℝ)
       else (Real.logb 10 (ticks.getD i 0) - Real.logb 10 (ticks.getD (i - 1) 0)) /
         (Real.logb 10 1 - Real.logb 10 (1 / 100))) := by
  obtain ⟨j, rfl⟩ : ∃ j, i = j + 1 := ⟨i - 1, by omega⟩
  unfold bars_widths
  rw [List.getD_cons_succ, List.getD_eq_getElem?_getD, List.getElem?_map,
    List.getElem?_range' 1 1 (by omega : j < ticks.length - 1)]
  have harg : 1 + 1 * j = j + 1 := by omega
  rw [harg]
  rfl

/-- C7: under the `log10` rule, bucket 0 has width 1; a bucket whose left
tick is 0 has width exactly 2; every other bucket `i ≥ 1` has width
`(log10 ticks[i] - log10 ticks[i-1]) / (log10 1 - log10 0.01)`; and for the
concrete ticks `[0, 1e-5, 1e-3]` the widths are exactly `[1, 2, 1]` — in
particular the bucket between the adjacent ticks `1e-5` and `1e-3` has
width exactly 1. -/
theorem c7_log10_widths (ticks : List ℝ) (i : ℕ) (h1 : 1 ≤ i) (h2 : i < ticks.length) :
    (bars_widths .log10 ticks).getD 0 0 = 1 ∧
    (ticks.getD (i - 1) 0 = 0 → (bars_widths .log10 ticks).getD i 0 = 2) ∧
    (ticks.getD (i - 1) 0 ≠ 0 →
      (bars_widths .log10 ticks).getD i 0 =
        (Real.logb 10 (ticks.getD i 0) - Real.logb 10 (ticks.getD (i - 1) 0)) /
          (Real.logb 10 1 - Real.logb 10 (1 / 100))) ∧
    bars_widths .log10 [0, 1 / 100000, 1 / 1000] = [1, 2, 1] := by
  refine ⟨rfl, ?_, ?_, ?_⟩
  · intro h0
    rw [bars_widths_getD ticks i h1 h2, if_pos h0]
  · intro h0
    rw [bars_widths_getD ticks i h1 h2, if_neg h0]
  · have hL : Real.log 10 ≠ 0 := ne_of_gt (Real.log_pos (by norm_num))
    have hlog : ∀ n : ℕ, Real.log ((1 : ℝ) / 10 ^ n) = -(n * Real.log 10) := by
      intro n
      rw [one_div, Real.log_inv, Real.log_pow]
    have h3 : Real.log ((1 : ℝ) / 1000) = -(3 * Real.log 10) := by
      rw [show ((1 : ℝ) / 1000) = 1 / 10 ^ (3 : ℕ) by norm_num, hlog]
      norm_num
    have h5 : Real.log ((1 : ℝ) / 100000) = -(5 * Real.log 10) := by
      rw [show ((1 : ℝ) / 100000) = 1 / 10 ^ (5 : ℕ) by norm_num, hlog]
      norm_num
    have h2w : Real.log ((1 : ℝ) / 100) = -(2 * Real.log 10) := by
      rw [show ((1 : ℝ) / 100) = 1 / 10 ^ (2 : ℕ) by norm_num, hlog]
      norm_num
    unfold bars_widths
    show (1 : ℝ) ::
        ([1, 2].map fun i =>
          if ([0, 1 / 100000, 1 / 1000] : List ℝ).getD (i - 1) 0 = 0 then (2 : ℝ)
          else (Real.logb 10 (([0, 1 / 100000, 1 / 1000] : List ℝ).getD i 0) -
              Real.logb 10 (([0, 1 / 100000, 1 / 1000] : List ℝ).getD (i - 1) 0)) /
            (Real.logb 10 1 - Real.logb 10 (1 / 100))) = [1, 2, 1]
    simp only [List.map_cons, List.map_nil]
    rw [if_pos (by norm_num : (([0, 1 / 100000, 1 / 1000] : List ℝ).getD 0 0 = 0)),
      if_neg (by norm_num : ¬(([0, 1 / 100000, 1 / 1000] : List ℝ).getD 1 0 = 0))]
    have hw : (Real.logb 10 (([0, 1 / 100000, 1 / 1000] : List ℝ).getD 2 0) -
        Real.logb 10 (([0, 1 / 100000, 1 / 1000] : List ℝ).getD 1 0)) /
        (Real.logb 10 1 - Real.logb 10 (1 / 100)) = 1 := by
      show (Real.logb 10 ((1 : ℝ) / 1000) - Real.logb 10 ((1 : ℝ) / 100000)) /
          (Real.logb 10 1 - Real.logb 10 (1 / 100)) = 1
      unfold Real.logb
      rw [h3, h5, h2w, Real.log_one]
      field_simp
      ring
    rw [hw]

/-- Witness for C7 at ticks `[0, 1e-5, 1e-3]`, bucket `i = 2`. -/
theorem c7_witness :
    (1 : ℕ) ≤ 2 ∧ 2 < ([0, 1 / 100000, 1 / 1000] : List ℝ).length ∧
    ((bars_widths .log10 [0, 1 / 100000, 1 / 1000]).getD 0 0 = 1 ∧
      (([0, 1 / 100000, 1 / 1000] : List ℝ).getD 1 0 = 0 →
        (bars_widths .log10 [0, 1 / 100000, 1 / 1000]).getD 2 0 = 2) ∧
      (([0, 1 / 100000, 1 / 1000] : List ℝ).getD 1 0 ≠ 0 →
        (bars_widths .log10 [0, 1 / 100000, 1 / 1000]).getD 2 0 =
          (Real.logb 10 (([0, 1 / 100000, 1 / 1000] : List ℝ).getD 2 0) -
              Real.logb 10 (([0, 1 / 100000, 1 / 1000] : List ℝ).getD 1 0)) /
            (Real.logb 10 1 - Real.logb 10 (1 / 100))) ∧
      bars_widths .log10 [0, 1 / 100000, 1 / 1000] = [1, 2, 1]) :=
  ⟨by norm_num, by simp,
    c7_log10_widths [0, 1 / 100000, 1 / 1000] 2 (by norm_num) (by simp)⟩

end GWAS
